import Mathlib

/-! Verification development for the imgly HTML5 SDK core rendering
pipeline: the `RenderImage` orchestrator and the `ImglyKit` facade
(src/unnamed/part_000) and the `CanvasRenderer` backend
(src/src/js/renderers/canvas-renderer.js).

Canvas dimensions are modelled as `Nat` (HTML canvas width/height are
non-negative integers). Promise chains are modelled as explicit
sequencing that additionally records a trace of the calls made against
operations and the renderer backend, so that ordering and call-count
properties can be stated. -/

namespace Imgly

/-- Embedding of `lib/math/vector2.js` as used by the pipeline: a pair of
pixel dimensions. The source's `Vector2.equals` compares both components,
which is propositional equality on this structure. -/
structure Vector2 where
  x : Nat
  y : Nat
deriving DecidableEq

/-- A decoded source image: width and height plus an identity for its
pixel data (the pipeline never inspects the pixels of the image itself). -/
structure Image where
  imgId : Nat
  width : Nat
  height : Nat
deriving DecidableEq

/-- A pixel value: transparent black (the state of a freshly allocated or
freshly resized canvas) or a pixel sampled from a source image's data. -/
inductive Pixel where
  | transparent
  | imagePixel (imgId x y : Nat)
deriving DecidableEq

/-- Symbolic content of a 2d canvas bitmap. `drawn dst src sx sy sw sh dx
dy dw dh` records a `context.drawImage(src, sx, sy, sw, sh, dx, dy, dw,
dh)` call performed on top of content `dst`. -/
inductive Content where
  | blank
  | imageContent (img : Image)
  | drawn (dst src : Content) (sx sy sw sh dx dy dw dh : Nat)
deriving DecidableEq

/-- Sampling semantics of symbolic canvas content, with nearest-neighbour
scaling for `drawImage`: inside the destination rectangle a pixel is
sampled from the source rectangle at the proportional coordinate,
otherwise the pixel of the underlying content shows through. -/
def Content.pixel : Content → Nat → Nat → Pixel
  | .blank, _, _ => .transparent
  | .imageContent img, x, y =>
      if x < img.width ∧ y < img.height then .imagePixel img.imgId x y
      else .transparent
  | .drawn dst src sx sy sw sh dx dy dw dh, x, y =>
      if dx ≤ x ∧ x < dx + dw ∧ dy ≤ y ∧ y < dy + dh then
        src.pixel (sx + (x - dx) * sw / dw) (sy + (y - dy) * sh / dh)
      else dst.pixel x y

/-- An HTML canvas element: an allocation identity `cid` (so that "a new
surface" is expressible), its bitmap dimensions and its content. -/
structure Canvas where
  cid : Nat
  width : Nat
  height : Nat
  content : Content
deriving DecidableEq

/-- Assigning `canvas.width` resets the bitmap to transparent black, per
the HTML canvas semantics relied on by the source. -/
def Canvas.setWidth (c : Canvas) (w : Nat) : Canvas :=
  ⟨c.cid, w, c.height, .blank⟩

/-- Assigning `canvas.height` likewise resets the bitmap. -/
def Canvas.setHeight (c : Canvas) (h : Nat) : Canvas :=
  ⟨c.cid, c.width, h, .blank⟩

/-- Embedding of the nine-argument `context.drawImage` call on a canvas:
the content is stacked symbolically. -/
def Canvas.drawImageFull (c : Canvas) (src : Content)
    (sx sy sw sh dx dy dw dh : Nat) : Canvas :=
  ⟨c.cid, c.width, c.height, .drawn c.content src sx sy sw sh dx dy dw dh⟩

/-- State of `CanvasRenderer` (src/src/js/renderers/canvas-renderer.js):
the active canvas `this._canvas` plus an allocation counter supplying
fresh identities for `createCanvas`. -/
structure CanvasRenderer where
  canvas : Canvas
  nextId : Nat

/-- Modelled from the spec: the base `Renderer` class (renderer.js) is not
under src/; per spec section 4.2 the backend owns a private surface and
`createCanvas` allocates a fresh canvas element (HTML default size is
300x150, transparent). The allocation counter makes the new surface a
distinct object from every previously allocated one. -/
def CanvasRenderer.createCanvas (r : CanvasRenderer) : Canvas × CanvasRenderer :=
  (⟨r.nextId, 300, 150, .blank⟩, ⟨r.canvas, r.nextId + 1⟩)

/-- Modelled from the spec: `setCanvas` of the missing base `Renderer`
class replaces the backend's active surface with the given one (spec
section 4.2: the old surface is discarded, ownership transferred). -/
def CanvasRenderer.setCanvas (r : CanvasRenderer) (c : Canvas) : CanvasRenderer :=
  ⟨c, r.nextId⟩

/-- Embedding of `CanvasRenderer.drawImage` (canvas-renderer.js line 51):
draws the full source image stretched onto the full extent of the active
canvas. -/
def CanvasRenderer.drawImage (r : CanvasRenderer) (image : Image) : CanvasRenderer :=
  ⟨r.canvas.drawImageFull (.imageContent image) 0 0 image.width image.height
      0 0 r.canvas.width r.canvas.height, r.nextId⟩

/-- Embedding of `CanvasRenderer.resizeTo` (canvas-renderer.js lines
60-78): create a temporary canvas, set its width and height to the given
dimensions, draw the full extent of the old canvas onto the full extent
of the new one, and make the new canvas the active surface. -/
def CanvasRenderer.resizeTo (r : CanvasRenderer) (dimensions : Vector2) : CanvasRenderer :=
  let alloc := r.createCanvas
  let newCanvas := (alloc.1.setWidth dimensions.x).setHeight dimensions.y
  let newCanvas := newCanvas.drawImageFull r.canvas.content
      0 0 r.canvas.width r.canvas.height
      0 0 newCanvas.width newCanvas.height
  alloc.2.setCanvas newCanvas

/-- Embedding of `CanvasRenderer.cloneCanvas` (canvas-renderer.js lines
84-96): create a canvas, resize it to the active canvas's dimensions,
draw the active canvas onto it at natural size (`drawImage(src, 0, 0)`
is the nine-argument call with source and destination rectangles both
equal to the source's full extent), and return it; the active surface is
left untouched. -/
def CanvasRenderer.cloneCanvas (r : CanvasRenderer) : Canvas × CanvasRenderer :=
  let alloc := r.createCanvas
  let canvas := (alloc.1.setWidth r.canvas.width).setHeight r.canvas.height
  let canvas := canvas.drawImageFull r.canvas.content
      0 0 r.canvas.width r.canvas.height
      0 0 r.canvas.width r.canvas.height
  (canvas, alloc.2)

/-- The two renderer backends of the SDK. -/
inductive RendererKind where
  | webgl
  | canvas
deriving DecidableEq

/-- Events emitted by the `ImglyKit` facade and by `RenderImage`
construction: the export-settings validation call, the backend support
probes performed by `_initRenderer`, the construction-time `drawImage`,
and the hand-off to the asynchronous pipeline. -/
inductive KitEvent where
  | exporterValidateCall
  | probeWebGL
  | probeCanvas
  | drawImageCall
  | renderImageRender
deriving DecidableEq

/-- Embedding of `RenderImage._initRenderer` (part_000 lines 81-97),
parameterised by the two static support probes: WebGL is probed first; it
is selected when supported and the preferred renderer is not "canvas";
otherwise the canvas backend is probed and selected when supported; when
no renderer was selected, construction throws (modelled as `none`,
accompanied by the trace of probe events). -/
def initRenderer (webglSupported canvasSupported : Bool)
    (preferredRenderer : Option String) : List KitEvent × Option RendererKind :=
  if webglSupported = true ∧ preferredRenderer ≠ some "canvas" then
    ([KitEvent.probeWebGL], some RendererKind.webgl)
  else if canvasSupported = true then
    ([KitEvent.probeWebGL, KitEvent.probeCanvas], some RendererKind.canvas)
  else
    ([KitEvent.probeWebGL, KitEvent.probeCanvas], none)

/-- The `ImglyKit` options consulted by `ImglyKit.render`: the source
image (possibly absent) and the renderer preference flag. -/
structure KitOptions where
  image : Option Image
  preferredRenderer : Option String

/-- Embedding of `ImglyKit.render` (part_000 lines 227-245) up to the
hand-off to the asynchronous `RenderImage` pipeline, which is modelled
separately below. The guard on `options.image` is the first statement;
then `ImageExporter.validateSettings` runs (its outcome is a parameter,
since image-exporter.js is an external collaborator not under src/);
then `new RenderImage(...)` probes and selects a backend, draws the
source image, and `renderImage.render()` is initiated. `Except.error`
models a synchronous throw out of `render`. -/
def ImglyKit.render (opts : KitOptions) (exporterValidate : Except String Unit)
    (webglSupported canvasSupported : Bool) :
    List KitEvent × Except String RendererKind :=
  match opts.image with
  | none => ([], Except.error "`options.image` is undefined.")
  | some _ =>
    match exporterValidate with
    | Except.error e => ([KitEvent.exporterValidateCall], Except.error e)
    | Except.ok _ =>
      let ir := initRenderer webglSupported canvasSupported opts.preferredRenderer
      match ir.2 with
      | none =>
          (KitEvent.exporterValidateCall :: ir.1,
           Except.error "Neither Canvas nor WebGL renderer are supported.")
      | some k =>
          (KitEvent.exporterValidateCall :: ir.1
             ++ [KitEvent.drawImageCall, KitEvent.renderImageRender],
           Except.ok k)

/-- Events of one `RenderImage.render()` pass: a `validateSettings` call
on operation `i`, the start and the settlement (`ok` = resolved,
not `ok` = rejected) of operation `i`'s `render(renderer)` call, the
backend's `renderFinal()` call, the `getSize()` read (recording the size
it returned) and a `resizeTo` call (recording its argument). -/
inductive Event where
  | validateCall (i : Nat)
  | beginRender (i : Nat)
  | endRender (i : Nat) (ok : Bool)
  | renderFinalCall
  | getSizeCall (result : Vector2)
  | resizeToCall (d : Vector2)
deriving DecidableEq

/-- The renderer capability contract used by `RenderImage.render`,
abstract over the backend state type: `renderFinal`, `getSize` and
`resizeTo` as state transformers / observers. -/
structure RendererModel (σ : Type) where
  renderFinal : σ → σ
  getSize : σ → Vector2
  resizeTo : Vector2 → σ → σ

/-- The operation contract (operations/operation.js is not under src/;
the pipeline only relies on this interface): `validateSettings` either
resolves or rejects, modelled by a boolean; `render` consumes the
renderer state and either resolves with the mutated state or rejects
(`none`). A rejecting `render` contributes no mutation. -/
structure Operation (σ : Type) where
  validateOk : Bool
  render : σ → Option σ

/-- Embedding of `bluebird.map(stack, (op) => op.render(renderer),
{ concurrency: 1 })` (part_000 lines 110-112): the operations are
started strictly in order, one at a time, each settling before the next
starts; on the first rejection the remaining operations are never
started and the whole map rejects. Returns the event trace, the renderer
state reached (state after the already-settled successful operations)
and `some i` when operation `i` rejected. -/
def mapConcurrency1 {σ : Type} : List (Operation σ) → Nat → σ →
    List Event × σ × Option Nat
  | [], _, s => ([], s, none)
  | op :: rest, i, s =>
    match op.render s with
    | some s2 =>
      let r := mapConcurrency1 rest (i + 1) s2
      (Event.beginRender i :: Event.endRender i true :: r.1, r.2)
    | none => ([Event.beginRender i, Event.endRender i false], s, some i)

/-- State of a `RenderImage` instance as far as `render()` consults it:
the borrowed operation stack `this._stack`, the renderer backend state
`this._renderer`, and `this._dimensions.calculateFinalDimensions`
(image-dimensions.js is not under src/; per spec section 4.1 dimension
resolution is a pure deterministic function of the current size, so it
is carried as an abstract function). -/
structure RenderImage (σ : Type) where
  stack : List (Operation σ)
  renderer : σ
  calculateFinalDimensions : Vector2 → Vector2

/-- Outcome of a rejected `render()` promise: a validation failure, or
the failure of operation `i` during the rendering phase. -/
inductive RenderError where
  | validationFailed
  | operationFailed (i : Nat)
deriving DecidableEq

/-- Embedding of `RenderImage.render` (part_000 lines 103-127): first
`bluebird.map` starts `validateSettings()` on every operation (all of
them are started, concurrently and order-independently); if any rejects
the chain rejects there and nothing else runs. Otherwise the operations
are rendered sequentially via `mapConcurrency1`; if one rejects the
chain rejects and the later `then` blocks are skipped. Otherwise
`renderFinal()` runs, the size is read, the final dimensions are
resolved against it, and `resizeTo` runs exactly when they differ.
Returns the event trace, the updated instance (the in-place backend
state survives a rejection) and the rejection, if any. -/
def RenderImage.render {σ : Type} (R : RendererModel σ) (ri : RenderImage σ) :
    List Event × RenderImage σ × Option RenderError :=
  let validateTrace := (List.range ri.stack.length).map Event.validateCall
  if ri.stack.all (fun op => op.validateOk) then
    match mapConcurrency1 ri.stack 0 ri.renderer with
    | (tr, s1, some i) =>
        (validateTrace ++ tr,
         ⟨ri.stack, s1, ri.calculateFinalDimensions⟩,
         some (RenderError.operationFailed i))
    | (tr, s1, none) =>
        let s2 := R.renderFinal s1
        let initialSize := R.getSize s2
        let finalDimensions := ri.calculateFinalDimensions initialSize
        if finalDimensions = initialSize then
          (validateTrace ++ tr ++ [Event.renderFinalCall, Event.getSizeCall initialSize],
           ⟨ri.stack, s2, ri.calculateFinalDimensions⟩, none)
        else
          (validateTrace ++ tr
             ++ [Event.renderFinalCall, Event.getSizeCall initialSize,
                 Event.resizeToCall finalDimensions],
           ⟨ri.stack, R.resizeTo finalDimensions s2, ri.calculateFinalDimensions⟩, none)
  else
    (validateTrace, ri, some RenderError.validationFailed)

/-- Recognises the start of an operation `render` call in a trace. -/
def isBeginRender : Event → Bool
  | .beginRender _ => true
  | _ => false

/-- Recognises the settlement of an operation `render` call in a trace. -/
def isEndRender : Event → Bool
  | .endRender _ _ => true
  | _ => false

/-- Recognises a backend `resizeTo` call in a trace. -/
def isResizeToCall : Event → Bool
  | .resizeToCall _ => true
  | _ => false

/-- A trace made of consecutive begin/settle pairs for operations
numbered `i, i + 1, ...`, the shape produced by `mapConcurrency1`. -/
inductive PairedFrom : Nat → List Event → Prop
  | nil (i : Nat) : PairedFrom i []
  | cons (i : Nat) (b : Bool) (tr : List Event) :
      PairedFrom (i + 1) tr →
      PairedFrom i (Event.beginRender i :: Event.endRender i b :: tr)

theorem pairedFrom_mapConcurrency1 {σ : Type} (ops : List (Operation σ)) :
    ∀ (i : Nat) (s : σ), PairedFrom i (mapConcurrency1 ops i s).1 := by
  induction ops with
  | nil => intro i s; exact PairedFrom.nil i
  | cons op rest ih =>
    intro i s
    cases hr : op.render s with
    | some s2 =>
      simp only [mapConcurrency1, hr]
      exact PairedFrom.cons i true _ (ih (i + 1) s2)
    | none =>
      simp only [mapConcurrency1, hr]
      exact PairedFrom.cons i false [] (PairedFrom.nil (i + 1))

theorem pairedFrom_split {n : Nat} {tr : List Event} (h : PairedFrom n tr) :
    ∀ (pre post : List Event) (j : Nat),
      tr = pre ++ Event.beginRender j :: post →
      n ≤ j ∧ ∀ m, n ≤ m → m < j → ∃ b, Event.endRender m b ∈ pre := by
  induction h with
  | nil i =>
    intro pre post j hsplit
    exact absurd hsplit (by simp)
  | cons i b tr h ih =>
    intro pre post j hsplit
    cases pre with
    | nil =>
      have h1 : i = j ∧ Event.endRender i b :: tr = post := by simpa using hsplit
      obtain ⟨rfl, -⟩ := h1
      exact ⟨Nat.le_refl i,
        fun m hm1 hm2 => absurd (Nat.lt_of_le_of_lt hm1 hm2) (Nat.lt_irrefl i)⟩
    | cons e1 pre1 =>
      have h1 : Event.beginRender i = e1 ∧
          Event.endRender i b :: tr = pre1 ++ Event.beginRender j :: post := by
        simpa using hsplit
      obtain ⟨rfl, h2⟩ := h1
      cases pre1 with
      | nil => simp at h2
      | cons e2 pre2 =>
        have h3 : Event.endRender i b = e2 ∧
            tr = pre2 ++ Event.beginRender j :: post := by simpa using h2
        obtain ⟨rfl, h4⟩ := h3
        obtain ⟨hj, hm⟩ := ih pre2 post j h4
        refine ⟨by omega, fun m hm1 hm2 => ?_⟩
        rcases Nat.lt_or_ge m (i + 1) with hlt | hge
        · have : m = i := by omega
          subst this
          exact ⟨b, by simp⟩
        · obtain ⟨b', hb'⟩ := hm m hge hm2
          exact ⟨b', by simp [hb']⟩

theorem pairedFrom_counts {n : Nat} {tr : List Event} (h : PairedFrom n tr) :
    ∀ pre : List Event, pre <+: tr →
      pre.countP isEndRender ≤ pre.countP isBeginRender ∧
      pre.countP isBeginRender ≤ pre.countP isEndRender + 1 := by
  induction h with
  | nil i =>
    intro pre hpre
    have : pre = [] := List.prefix_nil.mp hpre
    subst this; simp
  | cons i b tr h ih =>
    intro pre hpre
    cases pre with
    | nil => simp
    | cons e1 pre1 =>
      obtain ⟨rfl, hpre1⟩ := List.cons_prefix_cons.mp hpre
      cases pre1 with
      | nil => simp [isBeginRender, isEndRender, List.countP_cons]
      | cons e2 pre2 =>
        obtain ⟨rfl, hpre2⟩ := List.cons_prefix_cons.mp hpre1
        obtain ⟨h1, h2⟩ := ih pre2 hpre2
        simp only [List.countP_cons, isBeginRender, isEndRender]
        omega

theorem append_split_right {α : Type} {xs : List α} :
    ∀ {ys pre post : List α} {a : α}, a ∉ xs → xs ++ ys = pre ++ a :: post →
      ∃ pre2, pre = xs ++ pre2 ∧ ys = pre2 ++ a :: post := by
  induction xs with
  | nil =>
    intro ys pre post a _ h
    simp only [List.nil_append] at h
    exact ⟨pre, by simp, h⟩
  | cons x xs' ih =>
    intro ys pre post a hx h
    cases pre with
    | nil =>
      have h1 : x = a ∧ xs' ++ ys = post := by simpa using h
      exact absurd (h1.1 ▸ List.mem_cons_self x xs') hx
    | cons p pre' =>
      have h1 : x = p ∧ xs' ++ ys = pre' ++ a :: post := by simpa using h
      obtain ⟨rfl, h2⟩ := h1
      have hx' : a ∉ xs' := fun hmem => hx (List.mem_cons_of_mem x hmem)
      obtain ⟨pre2, rfl, hys⟩ := ih hx' h2
      exact ⟨pre2, by simp, hys⟩

theorem append_split_left {α : Type} {pre : List α} :
    ∀ {xs ys post : List α} {a : α}, a ∉ ys → xs ++ ys = pre ++ a :: post →
      ∃ post2, xs = pre ++ a :: post2 ∧ post = post2 ++ ys := by
  induction pre with
  | nil =>
    intro xs ys post a hy h
    cases xs with
    | nil =>
      simp only [List.nil_append] at h
      exact absurd (h ▸ List.mem_cons_self a post) hy
    | cons x xs' =>
      have h1 : x = a ∧ xs' ++ ys = post := by simpa using h
      obtain ⟨rfl, h2⟩ := h1
      exact ⟨xs', by simp, h2.symm⟩
  | cons p pre' ih =>
    intro xs ys post a hy h
    cases xs with
    | nil =>
      simp only [List.nil_append] at h
      rw [h] at hy
      simp at hy
    | cons x xs' =>
      have h1 : x = p ∧ xs' ++ ys = pre' ++ a :: post := by simpa using h
      obtain ⟨rfl, h2⟩ := h1
      obtain ⟨post2, hxs, hpost⟩ := ih hy h2
      exact ⟨post2, by simp [hxs], hpost⟩

theorem prefix_append_cases {α : Type} {xs : List α} :
    ∀ {pre ys : List α}, pre <+: xs ++ ys →
      pre <+: xs ∨ ∃ pre2, pre = xs ++ pre2 ∧ pre2 <+: ys := by
  induction xs with
  | nil =>
    intro pre ys h
    exact Or.inr ⟨pre, by simp, by simpa using h⟩
  | cons x xs' ih =>
    intro pre ys h
    cases pre with
    | nil => exact Or.inl ⟨x :: xs', rfl⟩
    | cons p pre' =>
      obtain ⟨rfl, hp⟩ := List.cons_prefix_cons.mp h
      rcases ih hp with h1 | ⟨pre2, rfl, h2⟩
      · exact Or.inl (List.cons_prefix_cons.mpr ⟨rfl, h1⟩)
      · exact Or.inr ⟨pre2, by simp, h2⟩

theorem mem_mapConcurrency1_renderEv {σ : Type} (ops : List (Operation σ)) :
    ∀ (i : Nat) (s : σ) (e : Event), e ∈ (mapConcurrency1 ops i s).1 →
      isBeginRender e = true ∨ isEndRender e = true := by
  induction ops with
  | nil => intro i s e he; simp [mapConcurrency1] at he
  | cons op rest ih =>
    intro i s e he
    cases hr : op.render s with
    | some s2 =>
      simp only [mapConcurrency1, hr, List.mem_cons] at he
      rcases he with rfl | rfl | he
      · exact Or.inl rfl
      · exact Or.inr rfl
      · exact ih (i + 1) s2 e he
    | none =>
      simp only [mapConcurrency1, hr, List.mem_cons] at he
      rcases he with rfl | rfl | he
      · exact Or.inl rfl
      · exact Or.inr rfl
      · simp at he

theorem beginRender_mem_bound {σ : Type} (ops : List (Operation σ)) :
    ∀ (i : Nat) (s : σ) (j : Nat),
      Event.beginRender j ∈ (mapConcurrency1 ops i s).1 →
      i ≤ j ∧ j < i + ops.length := by
  induction ops with
  | nil => intro i s j h; simp [mapConcurrency1] at h
  | cons op rest ih =>
    intro i s j h
    cases hr : op.render s with
    | some s2 =>
      simp only [mapConcurrency1, hr, List.mem_cons] at h
      rcases h with h | h | h
      · have : j = i := by simpa using h
        subst this
        simp only [List.length_cons]
        omega
      · simp at h
      · have := ih (i + 1) s2 j h
        simp only [List.length_cons]
        omega
    | none =>
      simp only [mapConcurrency1, hr, List.mem_cons] at h
      rcases h with h | h | h
      · have : j = i := by simpa using h
        subst this
        simp only [List.length_cons]
        omega
      · simp at h
      · simp at h

theorem mapConcurrency1_fail_at {σ : Type} (pre : List (Operation σ)) :
    ∀ (post : List (Operation σ)) (op : Operation σ) (i : Nat) (s s1 : σ)
      (tr : List Event),
      mapConcurrency1 pre i s = (tr, s1, none) →
      op.render s1 = none →
      mapConcurrency1 (pre ++ op :: post) i s =
        (tr ++ [Event.beginRender (i + pre.length),
                Event.endRender (i + pre.length) false],
         s1, some (i + pre.length)) := by
  induction pre with
  | nil =>
    intro post op i s s1 tr h hop
    simp only [mapConcurrency1, Prod.mk.injEq] at h
    obtain ⟨rfl, rfl, -⟩ := h
    simp [mapConcurrency1, hop]
  | cons op0 pre' ih =>
    intro post op i s s1 tr h hop
    cases hr : op0.render s with
    | none =>
      simp only [mapConcurrency1, hr, Prod.mk.injEq] at h
      exact absurd h.2.2 (by simp)
    | some s2 =>
      simp only [mapConcurrency1, hr, Prod.mk.injEq] at h
      obtain ⟨htr, hpair⟩ := h
      have hs1 : (mapConcurrency1 pre' (i + 1) s2).2.1 = s1 := by
        rw [hpair]
      have herr : (mapConcurrency1 pre' (i + 1) s2).2.2 = none := by
        rw [hpair]
      have hx : mapConcurrency1 pre' (i + 1) s2 =
          ((mapConcurrency1 pre' (i + 1) s2).1, s1, none) := by
        rw [← hs1, ← herr]
      have hrec := ih post op (i + 1) s2 s1 _ hx hop
      subst htr
      simp only [List.cons_append, mapConcurrency1, hr, List.append_eq, hrec,
        List.length_cons]
      have harith : i + 1 + pre'.length = i + (pre'.length + 1) := by omega
      rw [harith]

theorem mem_validateTrace {n : Nat} {e : Event}
    (h : e ∈ (List.range n).map Event.validateCall) :
    ∃ i, e = Event.validateCall i := by
  simp only [List.mem_map, List.mem_range] at h
  obtain ⟨i, -, rfl⟩ := h
  exact ⟨i, rfl⟩

theorem isBeginRender_eq {e : Event} (h : isBeginRender e = true) :
    ∃ j, e = Event.beginRender j := by
  cases e <;> first | exact ⟨_, rfl⟩ | simp [isBeginRender] at h

theorem isEndRender_eq {e : Event} (h : isEndRender e = true) :
    ∃ j b, e = Event.endRender j b := by
  cases e <;> first | exact ⟨_, _, rfl⟩ | simp [isEndRender] at h

theorem countP_validateTrace_zero (n : Nat) (p : Event → Bool)
    (hp : ∀ i, p (Event.validateCall i) = false) :
    ((List.range n).map Event.validateCall).countP p = 0 := by
  refine List.countP_eq_zero.mpr ?_
  intro e he
  obtain ⟨i, rfl⟩ := mem_validateTrace he
  simp [hp i]

theorem countP_mapTrace_zero {σ : Type} (ops : List (Operation σ)) (i : Nat)
    (s : σ) (p : Event → Bool)
    (hp1 : ∀ j, p (Event.beginRender j) = false)
    (hp2 : ∀ j b, p (Event.endRender j b) = false) :
    ((mapConcurrency1 ops i s).1).countP p = 0 := by
  refine List.countP_eq_zero.mpr ?_
  intro e he
  rcases mem_mapConcurrency1_renderEv ops i s e he with h | h
  · obtain ⟨j, rfl⟩ := isBeginRender_eq h
    simp [hp1 j]
  · obtain ⟨j, b, rfl⟩ := isEndRender_eq h
    simp [hp2 j b]

theorem pairedFrom_renderEv {n : Nat} {tr : List Event} (h : PairedFrom n tr) :
    ∀ e ∈ tr, isBeginRender e = true ∨ isEndRender e = true := by
  induction h with
  | nil i => intro e he; simp at he
  | cons i b tr h ih =>
    intro e he
    rcases List.mem_cons.mp he with rfl | he2
    · exact Or.inl rfl
    · rcases List.mem_cons.mp he2 with rfl | he3
      · exact Or.inr rfl
      · exact ih e he3

/-- Shape of every `render()` trace: the validation events, then a
strictly paired rendering-phase trace, then the finalize/size/resize
tail, which contains no operation render events. -/
theorem renderTrace_form {σ : Type} (R : RendererModel σ) (ri : RenderImage σ) :
    ∃ rtr ttr,
      (RenderImage.render R ri).1 =
        (List.range ri.stack.length).map Event.validateCall ++ (rtr ++ ttr) ∧
      PairedFrom 0 rtr ∧
      ∀ e ∈ ttr, isBeginRender e = false ∧ isEndRender e = false := by
  by_cases hv : ri.stack.all (fun op => op.validateOk) = true
  · rcases hmap : mapConcurrency1 ri.stack 0 ri.renderer with ⟨tr, s1, err⟩
    have hPaired : PairedFrom 0 tr := by
      have h0 := pairedFrom_mapConcurrency1 ri.stack 0 ri.renderer
      rw [hmap] at h0
      exact h0
    cases err with
    | some i =>
      refine ⟨tr, [], ?_, hPaired, by simp⟩
      simp [RenderImage.render, hv, hmap]
    | none =>
      by_cases hd : ri.calculateFinalDimensions (R.getSize (R.renderFinal s1)) =
          R.getSize (R.renderFinal s1)
      · refine ⟨tr, [Event.renderFinalCall,
          Event.getSizeCall (R.getSize (R.renderFinal s1))], ?_, hPaired, ?_⟩
        · simp [RenderImage.render, hv, hmap, hd]
        · intro e he
          rcases List.mem_cons.mp he with rfl | he2
          · exact ⟨rfl, rfl⟩
          · rcases List.mem_cons.mp he2 with rfl | he3
            · exact ⟨rfl, rfl⟩
            · simp at he3
      · refine ⟨tr, [Event.renderFinalCall,
          Event.getSizeCall (R.getSize (R.renderFinal s1)),
          Event.resizeToCall (ri.calculateFinalDimensions
            (R.getSize (R.renderFinal s1)))], ?_, hPaired, ?_⟩
        · simp [RenderImage.render, hv, hmap, hd]
        · intro e he
          rcases List.mem_cons.mp he with rfl | he2
          · exact ⟨rfl, rfl⟩
          · rcases List.mem_cons.mp he2 with rfl | he3
            · exact ⟨rfl, rfl⟩
            · rcases List.mem_cons.mp he3 with rfl | he4
              · exact ⟨rfl, rfl⟩
              · simp at he4
  · refine ⟨[], [], ?_, PairedFrom.nil 0, by simp⟩
    simp [RenderImage.render, hv]

/-- C1: during a render pass the rendering phase applies the operations
strictly in insertion order with concurrency 1: wherever operation
`i + 1`'s render call starts in the trace, operation `i`'s render call
has already settled earlier in the trace, and on every prefix of the
trace the started render calls exceed the settled ones by at most one
(so no two render calls are ever in flight at the same time). -/
theorem c1_sequential_render {σ : Type} (R : RendererModel σ) (ri : RenderImage σ) :
    (∀ i pre post,
        (RenderImage.render R ri).1 = pre ++ Event.beginRender (i + 1) :: post →
        ∃ b, Event.endRender i b ∈ pre) ∧
    (∀ pre, pre <+: (RenderImage.render R ri).1 →
        pre.countP isEndRender ≤ pre.countP isBeginRender ∧
        pre.countP isBeginRender ≤ pre.countP isEndRender + 1) := by
  obtain ⟨rtr, ttr, hform, hPaired, httr⟩ := renderTrace_form R ri
  have hv1 : ((List.range ri.stack.length).map Event.validateCall).countP
      isBeginRender = 0 :=
    countP_validateTrace_zero _ _ (fun _ => rfl)
  have hv2 : ((List.range ri.stack.length).map Event.validateCall).countP
      isEndRender = 0 :=
    countP_validateTrace_zero _ _ (fun _ => rfl)
  constructor
  · intro i pre post hsplit
    rw [hform] at hsplit
    have hnotv : Event.beginRender (i + 1) ∉
        (List.range ri.stack.length).map Event.validateCall := by
      intro hmem
      obtain ⟨k, hk⟩ := mem_validateTrace hmem
      simp at hk
    obtain ⟨pre2, rfl, hsplit2⟩ := append_split_right hnotv hsplit
    have hnott : Event.beginRender (i + 1) ∉ ttr := by
      intro hmem
      have hb := (httr _ hmem).1
      simp [isBeginRender] at hb
    obtain ⟨post2, hrtr, -⟩ := append_split_left hnott hsplit2
    obtain ⟨-, hm⟩ := pairedFrom_split hPaired pre2 post2 (i + 1) hrtr
    obtain ⟨b, hb⟩ := hm i (Nat.zero_le i) (Nat.lt_succ_self i)
    exact ⟨b, List.mem_append_right _ hb⟩
  · intro pre hpre
    rw [hform] at hpre
    rcases prefix_append_cases hpre with hcase | ⟨pre2, rfl, hcase2⟩
    · have hb : pre.countP isBeginRender = 0 := by
        refine List.countP_eq_zero.mpr ?_
        intro e he
        obtain ⟨k, rfl⟩ := mem_validateTrace (hcase.subset he)
        simp [isBeginRender]
      have he : pre.countP isEndRender = 0 := by
        refine List.countP_eq_zero.mpr ?_
        intro e he
        obtain ⟨k, rfl⟩ := mem_validateTrace (hcase.subset he)
        simp [isEndRender]
      omega
    · rcases prefix_append_cases hcase2 with hcase3 | ⟨pre3, rfl, hcase4⟩
      · have hmain := pairedFrom_counts hPaired pre2 hcase3
        simp only [List.countP_append, hv1, hv2]
        omega
      · have hmain := pairedFrom_counts hPaired rtr ⟨[], by simp⟩
        have ht1 : pre3.countP isBeginRender = 0 := by
          refine List.countP_eq_zero.mpr ?_
          intro e he
          have hf := (httr e (hcase4.subset he)).1
          simp [hf]
        have ht2 : pre3.countP isEndRender = 0 := by
          refine List.countP_eq_zero.mpr ?_
          intro e he
          have hf := (httr e (hcase4.subset he)).2
          simp [hf]
        simp only [List.countP_append, hv1, hv2, ht1, ht2]
        omega

/-- C2: validation is fail-fast and precedes all rendering: when some
operation's `validateSettings` fails, `render()` rejects with the
validation failure, the instance (in particular its backend state) is
left exactly as constructed, and the trace holds nothing but
`validateSettings` calls — no operation `render`, no `renderFinal`, no
`resizeTo` ever reaches the backend. -/
theorem c2_validation_fail_fast {σ : Type} (R : RendererModel σ)
    (ri : RenderImage σ) (h : ∃ op ∈ ri.stack, op.validateOk = false) :
    (RenderImage.render R ri).2.2 = some RenderError.validationFailed ∧
    (RenderImage.render R ri).2.1 = ri ∧
    ∀ e ∈ (RenderImage.render R ri).1, ∃ i, e = Event.validateCall i := by
  have hv : ri.stack.all (fun op => op.validateOk) = false := by
    cases hall : ri.stack.all (fun op => op.validateOk)
    · rfl
    · obtain ⟨op, hmem, hop⟩ := h
      have hcontra := List.all_eq_true.mp hall op hmem
      rw [hop] at hcontra
      exact absurd hcontra (by simp)
  refine ⟨by simp [RenderImage.render, hv], by simp [RenderImage.render, hv], ?_⟩
  intro e he
  simp only [RenderImage.render, hv, Bool.false_eq_true, if_false] at he
  exact mem_validateTrace he

/-- C3: when the operations up to index `pre.length - 1` succeed and the
operation at index `pre.length` fails during the rendering phase,
`render()` rejects with that operation's failure, the backend state is
exactly the state reached after the already-applied operations (their
effects remain, nothing is rolled back and neither `renderFinal` nor
`resizeTo` runs), and no operation after the failing one is ever
started. -/
theorem c3_midstack_failure {σ : Type} (R : RendererModel σ) (ri : RenderImage σ)
    (pre post : List (Operation σ)) (op : Operation σ) (s1 : σ)
    (hstack : ri.stack = pre ++ op :: post)
    (hvalid : ri.stack.all (fun o => o.validateOk) = true)
    (hpre : (mapConcurrency1 pre 0 ri.renderer).2 = (s1, none))
    (hop : op.render s1 = none) :
    (RenderImage.render R ri).2.2 = some (RenderError.operationFailed pre.length) ∧
    (RenderImage.render R ri).2.1.renderer = s1 ∧
    ∀ j, pre.length < j → Event.beginRender j ∉ (RenderImage.render R ri).1 := by
  have hpre' : mapConcurrency1 pre 0 ri.renderer =
      ((mapConcurrency1 pre 0 ri.renderer).1, s1, none) := by
    rw [← hpre]
  have hfail := mapConcurrency1_fail_at pre post op 0 ri.renderer s1 _ hpre' hop
  rw [← hstack] at hfail
  rw [Nat.zero_add] at hfail
  refine ⟨by simp [RenderImage.render, hvalid, hfail],
    by simp [RenderImage.render, hvalid, hfail], ?_⟩
  intro j hj hmem
  rw [show (RenderImage.render R ri).1 =
      (List.range ri.stack.length).map Event.validateCall ++
      ((mapConcurrency1 pre 0 ri.renderer).1 ++
       [Event.beginRender pre.length, Event.endRender pre.length false])
    from by simp [RenderImage.render, hvalid, hfail]] at hmem
  rcases List.mem_append.mp hmem with h1 | h2
  · obtain ⟨k, hk⟩ := mem_validateTrace h1
    simp at hk
  · rcases List.mem_append.mp h2 with h3 | h4
    · have hbound := beginRender_mem_bound pre 0 ri.renderer j h3
      omega
    · simp only [List.mem_cons, Event.beginRender.injEq, List.not_mem_nil] at h4
      rcases h4 with h5 | h5 | h5
      · omega
      · exact absurd h5 (by simp)
      · exact h5

/-- C9: the pipeline never mutates the operation stack: after `render()`
returns — with or without a rejection — the instance's stack is the very
stack it started with. -/
theorem c9_stack_immutable {σ : Type} (R : RendererModel σ) (ri : RenderImage σ) :
    (RenderImage.render R ri).2.1.stack = ri.stack := by
  by_cases hv : ri.stack.all (fun op => op.validateOk) = true
  · rcases hmap : mapConcurrency1 ri.stack 0 ri.renderer with ⟨tr, s1, err⟩
    cases err with
    | some i => simp [RenderImage.render, hv, hmap]
    | none =>
      by_cases hd : ri.calculateFinalDimensions (R.getSize (R.renderFinal s1)) =
          R.getSize (R.renderFinal s1)
      · simp [RenderImage.render, hv, hmap, hd]
      · simp [RenderImage.render, hv, hmap, hd]
  · simp [RenderImage.render, hv]

/-- C5: in every successful render pass the backend's `renderFinal()` is
called exactly once, after every operation `render` call has settled and
before the size is read for the resize decision. -/
theorem c5_renderFinal_once {σ : Type} (R : RendererModel σ) (ri : RenderImage σ)
    (h : (RenderImage.render R ri).2.2 = none) :
    ∃ pre post,
      (RenderImage.render R ri).1 = pre ++ Event.renderFinalCall :: post ∧
      Event.renderFinalCall ∉ pre ∧ Event.renderFinalCall ∉ post ∧
      (∀ i b, Event.endRender i b ∈ (RenderImage.render R ri).1 →
        Event.endRender i b ∈ pre) ∧
      (∃ sz, Event.getSizeCall sz ∈ post) ∧
      (∀ sz, Event.getSizeCall sz ∉ pre) := by
  by_cases hv : ri.stack.all (fun op => op.validateOk) = true
  case neg => simp [RenderImage.render, hv] at h
  rcases hmap : mapConcurrency1 ri.stack 0 ri.renderer with ⟨tr, s1, err⟩
  cases err with
  | some i => simp [RenderImage.render, hv, hmap] at h
  | none =>
    have hmem_tr : ∀ e ∈ tr, isBeginRender e = true ∨ isEndRender e = true := by
      intro e he
      refine mem_mapConcurrency1_renderEv ri.stack 0 ri.renderer e ?_
      rw [hmap]
      exact he
    have hnotpre : Event.renderFinalCall ∉
        (List.range ri.stack.length).map Event.validateCall ++ tr := by
      intro hmem
      rcases List.mem_append.mp hmem with h1 | h2
      · obtain ⟨k, hk⟩ := mem_validateTrace h1
        simp at hk
      · rcases hmem_tr _ h2 with h3 | h3 <;> simp [isBeginRender, isEndRender] at h3
    have hnotsz : ∀ sz, Event.getSizeCall sz ∉
        (List.range ri.stack.length).map Event.validateCall ++ tr := by
      intro sz hmem
      rcases List.mem_append.mp hmem with h1 | h2
      · obtain ⟨k, hk⟩ := mem_validateTrace h1
        simp at hk
      · rcases hmem_tr _ h2 with h3 | h3 <;> simp [isBeginRender, isEndRender] at h3
    by_cases hd : ri.calculateFinalDimensions (R.getSize (R.renderFinal s1)) =
        R.getSize (R.renderFinal s1)
    · refine ⟨(List.range ri.stack.length).map Event.validateCall ++ tr,
        [Event.getSizeCall (R.getSize (R.renderFinal s1))],
        by simp [RenderImage.render, hv, hmap, hd, List.append_assoc],
        hnotpre, by simp, ?_,
        ⟨R.getSize (R.renderFinal s1), by simp⟩, hnotsz⟩
      intro i b hmem
      rw [show (RenderImage.render R ri).1 =
          ((List.range ri.stack.length).map Event.validateCall ++ tr) ++
          [Event.renderFinalCall, Event.getSizeCall (R.getSize (R.renderFinal s1))]
        from by simp [RenderImage.render, hv, hmap, hd, List.append_assoc]] at hmem
      rcases List.mem_append.mp hmem with h1 | h2
      · exact h1
      · simp at h2
    · refine ⟨(List.range ri.stack.length).map Event.validateCall ++ tr,
        [Event.getSizeCall (R.getSize (R.renderFinal s1)),
         Event.resizeToCall (ri.calculateFinalDimensions
           (R.getSize (R.renderFinal s1)))],
        by simp [RenderImage.render, hv, hmap, hd, List.append_assoc],
        hnotpre, by simp, ?_,
        ⟨R.getSize (R.renderFinal s1), by simp⟩, hnotsz⟩
      intro i b hmem
      rw [show (RenderImage.render R ri).1 =
          ((List.range ri.stack.length).map Event.validateCall ++ tr) ++
          [Event.renderFinalCall, Event.getSizeCall (R.getSize (R.renderFinal s1)),
           Event.resizeToCall (ri.calculateFinalDimensions
             (R.getSize (R.renderFinal s1)))]
        from by simp [RenderImage.render, hv, hmap, hd, List.append_assoc]] at hmem
      rcases List.mem_append.mp hmem with h1 | h2
      · exact h1
      · simp at h2

/-- C6: in the resizing phase of a pass whose validation and rendering
both succeeded, when the resolved final dimensions equal the size the
renderer reports after finalizing, no `resizeTo` call is made at all and
the pass completes; otherwise `resizeTo` is called exactly once, with
exactly the resolved dimensions, and the pass completes with the resized
backend state. -/
theorem c6_resize_skip {σ : Type} (R : RendererModel σ) (ri : RenderImage σ)
    (s1 : σ)
    (hvalid : ri.stack.all (fun o => o.validateOk) = true)
    (hops : (mapConcurrency1 ri.stack 0 ri.renderer).2 = (s1, none)) :
    ((ri.calculateFinalDimensions (R.getSize (R.renderFinal s1)) =
        R.getSize (R.renderFinal s1)) →
      (∀ d, Event.resizeToCall d ∉ (RenderImage.render R ri).1) ∧
      (RenderImage.render R ri).2.2 = none ∧
      (RenderImage.render R ri).2.1.renderer = R.renderFinal s1) ∧
    ((ri.calculateFinalDimensions (R.getSize (R.renderFinal s1)) ≠
        R.getSize (R.renderFinal s1)) →
      ((RenderImage.render R ri).1.countP isResizeToCall = 1 ∧
       Event.resizeToCall (ri.calculateFinalDimensions
         (R.getSize (R.renderFinal s1))) ∈ (RenderImage.render R ri).1 ∧
       (RenderImage.render R ri).2.2 = none ∧
       (RenderImage.render R ri).2.1.renderer =
         R.resizeTo (ri.calculateFinalDimensions (R.getSize (R.renderFinal s1)))
           (R.renderFinal s1))) := by
  obtain ⟨tr0, htr0⟩ : ∃ tr0,
      mapConcurrency1 ri.stack 0 ri.renderer = (tr0, s1, none) :=
    ⟨(mapConcurrency1 ri.stack 0 ri.renderer).1, by rw [← hops]⟩
  have hvz : ((List.range ri.stack.length).map Event.validateCall).countP
      isResizeToCall = 0 :=
    countP_validateTrace_zero _ _ (fun _ => rfl)
  have hmz : tr0.countP isResizeToCall = 0 := by
    have h0 := countP_mapTrace_zero ri.stack 0 ri.renderer isResizeToCall
      (fun _ => rfl) (fun _ _ => rfl)
    rw [htr0] at h0
    exact h0
  have hmem_tr : ∀ e ∈ tr0, isBeginRender e = true ∨ isEndRender e = true := by
    intro e he
    refine mem_mapConcurrency1_renderEv ri.stack 0 ri.renderer e ?_
    rw [htr0]
    exact he
  constructor
  · intro hd
    refine ⟨?_, by simp [RenderImage.render, hvalid, htr0, hd],
      by simp [RenderImage.render, hvalid, htr0, hd]⟩
    intro d hmem
    rw [show (RenderImage.render R ri).1 =
        (List.range ri.stack.length).map Event.validateCall ++
        (tr0 ++
         [Event.renderFinalCall, Event.getSizeCall (R.getSize (R.renderFinal s1))])
      from by simp [RenderImage.render, hvalid, htr0, hd, List.append_assoc]] at hmem
    rcases List.mem_append.mp hmem with h1 | h2
    · obtain ⟨k, hk⟩ := mem_validateTrace h1
      simp at hk
    · rcases List.mem_append.mp h2 with h3 | h4
      · rcases hmem_tr _ h3 with h5 | h5 <;>
          simp [isBeginRender, isEndRender] at h5
      · simp at h4
  · intro hd
    have htr : (RenderImage.render R ri).1 =
        (List.range ri.stack.length).map Event.validateCall ++
        (tr0 ++
         [Event.renderFinalCall, Event.getSizeCall (R.getSize (R.renderFinal s1)),
          Event.resizeToCall (ri.calculateFinalDimensions
            (R.getSize (R.renderFinal s1)))]) := by
      simp [RenderImage.render, hvalid, htr0, hd, List.append_assoc]
    refine ⟨?_, ?_, by simp [RenderImage.render, hvalid, htr0, hd],
      by simp [RenderImage.render, hvalid, htr0, hd]⟩
    · rw [htr]
      simp [List.countP_append, hvz, hmz, List.countP_cons, isResizeToCall]
    · rw [htr]
      simp

/-- C4 counterexample: the claim says construction fails exactly when
neither backend reports support, but with WebGL supported, canvas
unsupported and the caller preferring "canvas", `_initRenderer` selects
nothing and throws even though one backend (WebGL) does report
support. -/
theorem c4_counterexample :
    (initRenderer true false (some "canvas")).2 = none ∧
    ¬ (∀ (w c : Bool) (p : Option String),
        (initRenderer w c p).2 = none → w = false ∧ c = false) := by
  refine ⟨by simp [initRenderer], fun h => ?_⟩
  have h2 := h true false (some "canvas") (by simp [initRenderer])
  exact absurd h2.1 (by simp)

/-- C4 amended: WebGL is probed first and selected exactly when it is
supported and the caller did not prefer "canvas"; otherwise the canvas
backend is selected exactly when it is supported; construction fails
exactly when the canvas backend is unsupported and WebGL is either
unsupported or explicitly declined by the preference flag. -/
theorem c4_backend_selection (w c : Bool) (p : Option String) :
    ((initRenderer w c p).2 = some RendererKind.webgl ↔
      (w = true ∧ p ≠ some "canvas")) ∧
    ((initRenderer w c p).2 = some RendererKind.canvas ↔
      (¬(w = true ∧ p ≠ some "canvas") ∧ c = true)) ∧
    ((initRenderer w c p).2 = none ↔
      (c = false ∧ (w = false ∨ p = some "canvas"))) ∧
    (initRenderer w c p).1.head? = some KitEvent.probeWebGL := by
  cases w <;> cases c <;> by_cases hp : p = some "canvas" <;>
    simp [initRenderer, hp]

/-- C7: `CanvasRenderer.resizeTo` allocates a new surface whose width and
height are the requested dimensions, draws the entire old surface — its
full width and height from the origin — into the full extent of the new
surface (every new pixel samples the old content proportionally, a
stretch rather than a crop), and installs the new surface as the active
one. The hypothesis is the allocation-counter invariant: the active
canvas was allocated before the counter's current value. -/
theorem c7_resizeTo_correct (r : CanvasRenderer) (d : Vector2)
    (hfresh : r.canvas.cid < r.nextId) :
    (r.resizeTo d).canvas.width = d.x ∧
    (r.resizeTo d).canvas.height = d.y ∧
    (r.resizeTo d).canvas.cid ≠ r.canvas.cid ∧
    (r.resizeTo d).canvas.content =
      Content.drawn Content.blank r.canvas.content
        0 0 r.canvas.width r.canvas.height 0 0 d.x d.y ∧
    (∀ x y, x < d.x → y < d.y →
      ((r.resizeTo d).canvas.content).pixel x y =
        (r.canvas.content).pixel (x * r.canvas.width / d.x)
          (y * r.canvas.height / d.y)) := by
  refine ⟨rfl, rfl, ?_, rfl, ?_⟩
  · show r.nextId ≠ r.canvas.cid
    omega
  · intro x y hx hy
    show Content.pixel (Content.drawn Content.blank r.canvas.content
      0 0 r.canvas.width r.canvas.height 0 0 d.x d.y) x y = _
    simp [Content.pixel, hx, hy]

/-- C8: `CanvasRenderer.cloneCanvas` returns a newly allocated surface
with the same width, height and pixel content as the active surface,
distinct from it, and leaves the backend's active surface (and its
content) untouched. The hypothesis is the allocation-counter
invariant. -/
theorem c8_cloneCanvas_correct (r : CanvasRenderer)
    (hfresh : r.canvas.cid < r.nextId) :
    (r.cloneCanvas).1.width = r.canvas.width ∧
    (r.cloneCanvas).1.height = r.canvas.height ∧
    (∀ x y, x < r.canvas.width → y < r.canvas.height →
      ((r.cloneCanvas).1.content).pixel x y = (r.canvas.content).pixel x y) ∧
    (r.cloneCanvas).1.cid ≠ r.canvas.cid ∧
    (r.cloneCanvas).2.canvas = r.canvas := by
  refine ⟨rfl, rfl, ?_, ?_, rfl⟩
  · intro x y hx hy
    have hw : 0 < r.canvas.width := Nat.lt_of_le_of_lt (Nat.zero_le x) hx
    have hh : 0 < r.canvas.height := Nat.lt_of_le_of_lt (Nat.zero_le y) hy
    show Content.pixel (Content.drawn Content.blank r.canvas.content
      0 0 r.canvas.width r.canvas.height
      0 0 r.canvas.width r.canvas.height) x y = _
    simp [Content.pixel, hx, hy, Nat.mul_div_cancel x hw, Nat.mul_div_cancel y hh]
  · show r.nextId ≠ r.canvas.cid
    omega

/-- C10: `ImglyKit.render` on an instance whose options hold no image
throws synchronously with the exact message, with an empty event trace:
no export-settings validation, no `RenderImage` construction, no backend
probe and no allocation ever happens. -/
theorem c10_render_without_image (opts : KitOptions)
    (exporterValidate : Except String Unit) (w c : Bool)
    (h : opts.image = none) :
    ImglyKit.render opts exporterValidate w c =
      ([], Except.error "`options.image` is undefined.") := by
  rcases opts with ⟨img, p⟩
  cases h
  rfl

/-- Witness for C2 at a one-operation stack whose validation fails. -/
theorem c2_validation_fail_fast_witness :
    (∃ op ∈ [(⟨false, fun s => some s⟩ : Operation Nat)], op.validateOk = false) ∧
    ((RenderImage.render (⟨fun s => s, fun _ => ⟨1, 1⟩, fun _ s => s⟩ :
          RendererModel Nat)
        ⟨[⟨false, fun s => some s⟩], 0, fun v => v⟩).2.2 =
      some RenderError.validationFailed ∧
     (RenderImage.render (⟨fun s => s, fun _ => ⟨1, 1⟩, fun _ s => s⟩ :
          RendererModel Nat)
        ⟨[⟨false, fun s => some s⟩], 0, fun v => v⟩).2.1 =
      ⟨[⟨false, fun s => some s⟩], 0, fun v => v⟩ ∧
     ∀ e ∈ (RenderImage.render (⟨fun s => s, fun _ => ⟨1, 1⟩, fun _ s => s⟩ :
          RendererModel Nat)
        ⟨[⟨false, fun s => some s⟩], 0, fun v => v⟩).1,
       ∃ i, e = Event.validateCall i) :=
  ⟨⟨⟨false, fun s => some s⟩, by simp, rfl⟩,
   c2_validation_fail_fast _ _ ⟨⟨false, fun s => some s⟩, by simp, rfl⟩⟩

/-- Witness for C3 at a three-operation stack whose middle operation
fails. -/
theorem c3_midstack_failure_witness :
    ((⟨[⟨true, fun s => some (s + 1)⟩, ⟨true, fun _ => none⟩,
        ⟨true, fun s => some (s + 100)⟩], 0, fun v => v⟩ :
          RenderImage Nat).stack =
      [⟨true, fun s => some (s + 1)⟩] ++
        (⟨true, fun _ => none⟩ : Operation Nat) ::
          [⟨true, fun s => some (s + 100)⟩]) ∧
    ((⟨[⟨true, fun s => some (s + 1)⟩, ⟨true, fun _ => none⟩,
        ⟨true, fun s => some (s + 100)⟩], 0, fun v => v⟩ :
          RenderImage Nat).stack.all (fun o => o.validateOk) = true) ∧
    ((mapConcurrency1 [(⟨true, fun s => some (s + 1)⟩ : Operation Nat)] 0
        (0 : Nat)).2 = (1, none)) ∧
    ((⟨true, fun _ => none⟩ : Operation Nat).render 1 = none) ∧
    ((RenderImage.render (⟨fun s => s, fun _ => ⟨1, 1⟩, fun _ s => s⟩ :
          RendererModel Nat)
        ⟨[⟨true, fun s => some (s + 1)⟩, ⟨true, fun _ => none⟩,
          ⟨true, fun s => some (s + 100)⟩], 0, fun v => v⟩).2.2 =
      some (RenderError.operationFailed 1) ∧
     (RenderImage.render (⟨fun s => s, fun _ => ⟨1, 1⟩, fun _ s => s⟩ :
          RendererModel Nat)
        ⟨[⟨true, fun s => some (s + 1)⟩, ⟨true, fun _ => none⟩,
          ⟨true, fun s => some (s + 100)⟩], 0, fun v => v⟩).2.1.renderer = 1 ∧
     ∀ j, (1 : Nat) < j →
       Event.beginRender j ∉
         (RenderImage.render (⟨fun s => s, fun _ => ⟨1, 1⟩, fun _ s => s⟩ :
            RendererModel Nat)
          ⟨[⟨true, fun s => some (s + 1)⟩, ⟨true, fun _ => none⟩,
            ⟨true, fun s => some (s + 100)⟩], 0, fun v => v⟩).1) :=
  ⟨rfl, rfl, rfl, rfl,
   c3_midstack_failure _ _ [⟨true, fun s => some (s + 1)⟩]
     [⟨true, fun s => some (s + 100)⟩] ⟨true, fun _ => none⟩ 1 rfl rfl rfl rfl⟩

/-- Witness for C5 at an empty stack (a trivially successful pass). -/
theorem c5_renderFinal_once_witness :
    ((RenderImage.render (⟨fun s => s, fun _ => ⟨1, 1⟩, fun _ s => s⟩ :
          RendererModel Nat)
        ⟨[], 7, fun v => v⟩).2.2 = none) ∧
    (∃ pre post,
      (RenderImage.render (⟨fun s => s, fun _ => ⟨1, 1⟩, fun _ s => s⟩ :
            RendererModel Nat)
          ⟨[], 7, fun v => v⟩).1 = pre ++ Event.renderFinalCall :: post ∧
      Event.renderFinalCall ∉ pre ∧ Event.renderFinalCall ∉ post ∧
      (∀ i b, Event.endRender i b ∈
          (RenderImage.render (⟨fun s => s, fun _ => ⟨1, 1⟩, fun _ s => s⟩ :
              RendererModel Nat)
            ⟨[], 7, fun v => v⟩).1 →
        Event.endRender i b ∈ pre) ∧
      (∃ sz, Event.getSizeCall sz ∈ post) ∧
      (∀ sz, Event.getSizeCall sz ∉ pre)) :=
  ⟨rfl, c5_renderFinal_once _ _ rfl⟩

/-- Witness for C6 at an empty stack with the identity resolver, so the
resolved size equals the current size and the skip branch is exercised. -/
theorem c6_resize_skip_witness :
    ((⟨[], 7, fun v => v⟩ : RenderImage Nat).stack.all
      (fun o => o.validateOk) = true) ∧
    ((mapConcurrency1 (⟨[], 7, fun v => v⟩ : RenderImage Nat).stack 0
        (7 : Nat)).2 = (7, none)) ∧
    (((⟨1, 1⟩ : Vector2) = ⟨1, 1⟩) →
      (∀ d, Event.resizeToCall d ∉
        (RenderImage.render (⟨fun s => s, fun _ => ⟨1, 1⟩, fun _ s => s⟩ :
            RendererModel Nat) ⟨[], 7, fun v => v⟩).1) ∧
      (RenderImage.render (⟨fun s => s, fun _ => ⟨1, 1⟩, fun _ s => s⟩ :
          RendererModel Nat) ⟨[], 7, fun v => v⟩).2.2 = none ∧
      (RenderImage.render (⟨fun s => s, fun _ => ⟨1, 1⟩, fun _ s => s⟩ :
          RendererModel Nat) ⟨[], 7, fun v => v⟩).2.1.renderer = 7) ∧
    (((⟨1, 1⟩ : Vector2) ≠ ⟨1, 1⟩) →
      ((RenderImage.render (⟨fun s => s, fun _ => ⟨1, 1⟩, fun _ s => s⟩ :
          RendererModel Nat) ⟨[], 7, fun v => v⟩).1.countP isResizeToCall = 1 ∧
       Event.resizeToCall ⟨1, 1⟩ ∈
         (RenderImage.render (⟨fun s => s, fun _ => ⟨1, 1⟩, fun _ s => s⟩ :
            RendererModel Nat) ⟨[], 7, fun v => v⟩).1 ∧
       (RenderImage.render (⟨fun s => s, fun _ => ⟨1, 1⟩, fun _ s => s⟩ :
           RendererModel Nat) ⟨[], 7, fun v => v⟩).2.2 = none ∧
       (RenderImage.render (⟨fun s => s, fun _ => ⟨1, 1⟩, fun _ s => s⟩ :
           RendererModel Nat) ⟨[], 7, fun v => v⟩).2.1.renderer = 7)) :=
  ⟨rfl, rfl,
   (c6_resize_skip (⟨fun s => s, fun _ => ⟨1, 1⟩, fun _ s => s⟩ :
        RendererModel Nat) ⟨[], 7, fun v => v⟩ 7 rfl rfl).1,
   (c6_resize_skip (⟨fun s => s, fun _ => ⟨1, 1⟩, fun _ s => s⟩ :
        RendererModel Nat) ⟨[], 7, fun v => v⟩ 7 rfl rfl).2⟩

/-- Witness for C7 at a 2x3 canvas resized to 4x6. -/
theorem c7_resizeTo_correct_witness :
    ((⟨⟨0, 2, 3, Content.imageContent ⟨5, 2, 3⟩⟩, 1⟩ :
        CanvasRenderer).canvas.cid <
      (⟨⟨0, 2, 3, Content.imageContent ⟨5, 2, 3⟩⟩, 1⟩ :
        CanvasRenderer).nextId) ∧
    ((CanvasRenderer.resizeTo ⟨⟨0, 2, 3, Content.imageContent ⟨5, 2, 3⟩⟩, 1⟩
        ⟨4, 6⟩).canvas.width = 4 ∧
     (CanvasRenderer.resizeTo ⟨⟨0, 2, 3, Content.imageContent ⟨5, 2, 3⟩⟩, 1⟩
        ⟨4, 6⟩).canvas.height = 6 ∧
     (CanvasRenderer.resizeTo ⟨⟨0, 2, 3, Content.imageContent ⟨5, 2, 3⟩⟩, 1⟩
        ⟨4, 6⟩).canvas.cid ≠ 0 ∧
     (CanvasRenderer.resizeTo ⟨⟨0, 2, 3, Content.imageContent ⟨5, 2, 3⟩⟩, 1⟩
        ⟨4, 6⟩).canvas.content =
       Content.drawn Content.blank (Content.imageContent ⟨5, 2, 3⟩)
         0 0 2 3 0 0 4 6 ∧
     (∀ x y, x < 4 → y < 6 →
       ((CanvasRenderer.resizeTo ⟨⟨0, 2, 3, Content.imageContent ⟨5, 2, 3⟩⟩, 1⟩
          ⟨4, 6⟩).canvas.content).pixel x y =
         (Content.imageContent (⟨5, 2, 3⟩ : Image)).pixel (x * 2 / 4)
           (y * 3 / 6))) :=
  ⟨by decide, c7_resizeTo_correct _ _ (by decide)⟩

/-- Witness for C8 at a 2x3 canvas. -/
theorem c8_cloneCanvas_correct_witness :
    ((⟨⟨0, 2, 3, Content.imageContent ⟨5, 2, 3⟩⟩, 1⟩ :
        CanvasRenderer).canvas.cid <
      (⟨⟨0, 2, 3, Content.imageContent ⟨5, 2, 3⟩⟩, 1⟩ :
        CanvasRenderer).nextId) ∧
    ((CanvasRenderer.cloneCanvas
        ⟨⟨0, 2, 3, Content.imageContent ⟨5, 2, 3⟩⟩, 1⟩).1.width = 2 ∧
     (CanvasRenderer.cloneCanvas
        ⟨⟨0, 2, 3, Content.imageContent ⟨5, 2, 3⟩⟩, 1⟩).1.height = 3 ∧
     (∀ x y, x < 2 → y < 3 →
       ((CanvasRenderer.cloneCanvas
          ⟨⟨0, 2, 3, Content.imageContent ⟨5, 2, 3⟩⟩, 1⟩).1.content).pixel x y =
         (Content.imageContent (⟨5, 2, 3⟩ : Image)).pixel x y) ∧
     (CanvasRenderer.cloneCanvas
        ⟨⟨0, 2, 3, Content.imageContent ⟨5, 2, 3⟩⟩, 1⟩).1.cid ≠ 0 ∧
     (CanvasRenderer.cloneCanvas
        ⟨⟨0, 2, 3, Content.imageContent ⟨5, 2, 3⟩⟩, 1⟩).2.canvas =
       ⟨0, 2, 3, Content.imageContent ⟨5, 2, 3⟩⟩) :=
  ⟨by decide, c8_cloneCanvas_correct _ (by decide)⟩

/-- Witness for C10 at options that hold no image. -/
theorem c10_render_without_image_witness :
    ((⟨none, none⟩ : KitOptions).image = none) ∧
    ImglyKit.render ⟨none, none⟩ (Except.ok ()) true true =
      ([], Except.error "`options.image` is undefined.") :=
  ⟨rfl, c10_render_without_image _ _ _ _ rfl⟩

end Imgly
